import Mathlib

/-!
Verification development for the issue-sync reconciliation engine.

This file is a shallow embedding, in Lean 4, of the reconciliation and
field-mapping core of the issue-sync program:

* `lib/utils/utils.go`          — `Retry`, `SliceStringsEq`
* `lib/issues.go`               — `DidIssueChange`, `UpdateIssue`, `CompareIssues`
* `lib/issuesyncjira/jira.go`   — `TryApplyTransitionWithStatusName`, `ListIssues`
* `lib/issuesyncgithub/github.go` — `getCurrentProjectCardAndCommitIds`, `ListIssues`
* `cfg` field mappers           — `DefaultFieldMapper`, `JsonFieldMapper`

Modelling conventions:

* Go machine integers (`int`, `int64`) are modelled as `Int`; none of the
  embedded code paths overflow-wrap, and no arithmetic is performed on them
  beyond equality tests, except for the float64 rounding performed by JSON
  deserialization, which is modelled exactly (`roundDouble`).
* Go `interface{}` values flowing through the field mappers are modelled by
  `GoVal`.  The value universe is restricted to the shapes this program ever
  stores or reads back: nil, integers, integral floats, strings, JSON-object
  strings and string lists.
* A Go string holding JSON is represented by its parse result: constructor
  `GoVal.vjson o` stands for a string whose contents deserialize to the JSON
  object `o`, and `GoVal.vstr s` for any other string (so `json.Unmarshal`
  into a map fails on it).  JSON values are restricted likewise (`Jv`):
  null, integer numbers, strings, and arrays of strings — the only JSON
  shapes this program writes or compares.
* Nil-pointer dereferences and failing type assertions (Go panics) are
  modelled by returning `none` from an `Option`-valued function.
* Remote calls are modelled by oracle functions passed as parameters, and
  every remote-calling operation also returns the list of calls it issued
  (its trace), so that "performs no write" claims are statements about the
  trace.
-/

namespace IssueSync

/-- JSON values, restricted to the shapes issue-sync reads and writes:
null, integral numbers, strings and arrays of strings. -/
inductive Jv where
  | jnull : Jv
  | jint (i : Int) : Jv
  | jstr (s : String) : Jv
  | jarr (xs : List String) : Jv
deriving DecidableEq, Repr

/-- A JSON object: association list from keys to values.  Go's
`json.Marshal` emits each map key once, so keys are unique in objects this
program produces; lookup takes the first match. -/
abbrev JObj := List (String × Jv)

/-- Lookup in a parsed JSON object (Go `parsedJson[k]`; a missing key reads
as Go `nil`, which we surface as `none` here). -/
def jsonLookup (o : JObj) (k : String) : Option Jv :=
  (o.find? (fun p => p.1 = k)).map (·.2)

/-- Go `interface{}` values stored in a ticket's custom-field map
(`Unknowns`) or returned by a field mapper. `vjson o` is a Go string whose
contents deserialize to the JSON object `o`; `vstr s` is any other string. -/
inductive GoVal where
  | vnil : GoVal
  | vint (i : Int) : GoVal
  | vfloat (m : Int) : GoVal
  | vstr (s : String) : GoVal
  | vjson (o : JObj) : GoVal
  | vlist (xs : List String) : GoVal
deriving DecidableEq, Repr

/-- Round `n` to the nearest multiple of `u` (`u > 0`), ties to even
multiple — the IEEE-754 rounding used when a decimal integer is parsed
into a float64. -/
def roundHalfEvenNat (u n : Nat) : Nat :=
  let q := n / u
  let r := n % u
  if 2 * r < u then q * u
  else if u < 2 * r then (q + 1) * u
  else if q % 2 = 0 then q * u else (q + 1) * u

/-- The integer value of the float64 nearest to the natural number `n`:
exact below `2^53`, otherwise rounded to the precision of a 53-bit
significand. -/
def roundDoubleNat (n : Nat) : Nat :=
  if n ≤ 2 ^ 53 then n
  else roundHalfEvenNat (2 ^ (n.log2 - 52)) n

/-- The integer value of the float64 nearest to the integer `n`.  This is
what Go's `json.Unmarshal` produces (as a `float64`) for a JSON integer
literal `n`. -/
def roundDouble (n : Int) : Int :=
  if 0 ≤ n then (roundDoubleNat n.natAbs : Int) else -(roundDoubleNat n.natAbs : Int)

/-- The logical field keys used by issue-sync (`cfg.FieldKey`). -/
inductive FieldKey where
  | gitHubID | gitHubNumber | gitHubLabels | gitHubStatus | gitHubReporter
  | gitHubCommits | gitHubIssueData | lastISUpdate
deriving DecidableEq, Repr

/-- A GitHub-side source issue, as collected by the source collector
(`models.ExtendedGithubIssue` with the derived attributes already
computed).  `projectCard` is the column name of the current project card
(`none` when the issue has no card); `commitIds` distinguishes a Go nil
slice (`none`) from a non-nil one. -/
structure GHIssue where
  id : Int
  number : Int
  title : String
  body : String
  state : String
  userLogin : String
  labels : List String
  projectCard : Option String
  commitIds : Option (List String)
deriving DecidableEq, Repr

/-- A JIRA status (`jira.Status`, through a pointer that may be nil). -/
structure JStatus where
  name : String
deriving DecidableEq, Repr

/-- The custom-field map of a ticket (`tcontainer.MarshalMap`): a sequence
of writes, most recent first; lookup takes the first match. -/
abbrev Unknowns := List (String × GoVal)

/-- Lookup in the custom-field map (`Unknowns.Value`): the value and
whether the key exists. -/
def ukValue (m : Unknowns) (k : String) : Option GoVal :=
  (m.find? (fun p => p.1 = k)).map (·.2)

/-- The fields of a JIRA ticket (`jira.IssueFields`; `status` is a
possibly-nil pointer). -/
structure JiraFields where
  summary : String
  description : String
  status : Option JStatus
  projectKey : String
  unknowns : Unknowns
deriving DecidableEq, Repr

/-- A JIRA ticket (`jira.Issue`; `fields` is a possibly-nil pointer). -/
structure JiraIssue where
  key : String
  id : String
  fields : Option JiraFields
deriving DecidableEq, Repr

/-- Go `strings.ToLower`, modelled as per-character lowercasing over the
string's character list (the embedded code only ever compares ASCII status
and column names). -/
def toLowerStr (s : String) : String := ⟨s.data.map Char.toLower⟩

/-- Go `strings.Join(l, ",")`. -/
def joinComma : List String → String
  | [] => ""
  | [x] => x
  | x :: y :: xs => x ++ "," ++ joinComma (y :: xs)

/-- The `utils.SliceStringsEq` comparison: treats a nil slice (`none`) the
same as an empty slice, then compares lengths and elements in order. -/
def SliceStringsEq (a b : Option (List String)) : Bool :=
  let aa := match a with | none => [] | some l => l
  let bb := match b with | none => [] | some l => l
  if aa.length ≠ bb.length then false
  else (List.zip aa bb).all fun p => p.1 = p.2

/-- A field mapper's read side, `GetFieldValue`: given a ticket and a
logical key, a Go `(interface{}, error)` pair.  The outer `Option` is
`none` when the Go code would panic (nil dereference or failed type
assertion); `Except Unit GoVal` carries the error/value pair otherwise. -/
abbrev GetFV := JiraIssue → FieldKey → Option (Except Unit GoVal)

/-- Configuration as the mappers see it: `GetCompleteFieldKey`, the
physical custom-field key for each logical field. -/
structure MapperCfg where
  cfk : FieldKey → String
  projectKey : String

namespace DefaultFieldMapper

/-- The direct-field strategy's `GetFieldValue` (src/unnamed/part_001,
lines 52–65): numeric keys are read with `Unknowns.Int` (succeeds only on
an integer value), the rest with `Unknowns.Value` (any present value,
"field not found" otherwise).  A nil `Fields` pointer panics (`none`). -/
def GetFieldValue (cfg : MapperCfg) : GetFV := fun jIssue fieldKey =>
  match jIssue.fields with
  | none => none
  | some jf =>
    match fieldKey with
    | .gitHubID | .gitHubNumber =>
      match ukValue jf.unknowns (cfg.cfk fieldKey) with
      | some (.vint i) => some (.ok (.vint i))
      | _ => some (.error ())
    | _ =>
      match ukValue jf.unknowns (cfg.cfk fieldKey) with
      | some v => some (.ok v)
      | none => some (.error ())

/-- The direct-field strategy's `MapFields` (src/unnamed/part_001, lines
67–92): each logical field written to its own physical custom field; the
label list joined with commas; the timestamp (`time.Now()`) passed in as
`now`.  The newest write is at the head of the `Unknowns` list (map
semantics: lookup finds the most recent write).  Note: this variant stores
no commit-id field. -/
def MapFields (cfg : MapperCfg) (now : String) (issue : GHIssue) : JiraFields :=
  { summary := issue.title
    description := issue.body
    status := none
    projectKey := cfg.projectKey
    unknowns :=
      [(cfg.cfk .lastISUpdate, .vstr now),
       (cfg.cfk .gitHubLabels, .vstr (joinComma issue.labels)),
       (cfg.cfk .gitHubReporter, .vstr issue.userLogin),
       (cfg.cfk .gitHubStatus, .vstr issue.state),
       (cfg.cfk .gitHubNumber, .vint issue.number),
       (cfg.cfk .gitHubID, .vint issue.id)] }

end DefaultFieldMapper

namespace JsonFieldMapper

/-- Conversion of a parsed JSON value to the Go `interface{}` produced by
`json.Unmarshal`: numbers become float64 (rounded to double precision),
strings stay strings, arrays become `[]interface{}`, null becomes nil. -/
def goOfJv : Jv → GoVal
  | .jnull => .vnil
  | .jint i => .vfloat (roundDouble i)
  | .jstr s => .vstr s
  | .jarr xs => .vlist xs

/-- The blob strategy's `GetFieldValue` (src/unnamed/part_001, lines
164–199): read the shared blob field as a string, deserialize it, then
project the requested key.  `GitHubID`/`GitHubNumber` are cast through
`.(float64)` and truncated to int64, which panics (`none`) when the key is
missing or not a number; `GitHubCommits` defaults a missing/null entry to
an empty list; the remaining keys are returned as-is (nil when absent). -/
def GetFieldValue (cfg : MapperCfg) : GetFV := fun jIssue fieldKey =>
  match jIssue.fields with
  | none => none
  | some jf =>
    match ukValue jf.unknowns (cfg.cfk .gitHubIssueData) with
    | some (.vjson parsedJson) =>
      match fieldKey with
      | .gitHubID =>
        match jsonLookup parsedJson "githubId" with
        | some (.jint i) => some (.ok (.vint (roundDouble i)))
        | _ => none
      | .gitHubNumber =>
        match jsonLookup parsedJson "githubNumber" with
        | some (.jint i) => some (.ok (.vint (roundDouble i)))
        | _ => none
      | .gitHubLabels =>
        some (.ok (((jsonLookup parsedJson "githubLabels").map goOfJv).getD .vnil))
      | .gitHubStatus =>
        some (.ok (((jsonLookup parsedJson "githubStatus").map goOfJv).getD .vnil))
      | .gitHubReporter =>
        some (.ok (((jsonLookup parsedJson "githubReporter").map goOfJv).getD .vnil))
      | .gitHubCommits =>
        match (jsonLookup parsedJson "githubCommits").map goOfJv with
        | none => some (.ok (.vlist []))
        | some .vnil => some (.ok (.vlist []))
        | some v => some (.ok v)
      | .lastISUpdate =>
        some (.ok (((jsonLookup parsedJson "lastIssueSyncUpdate").map goOfJv).getD .vnil))
      | .gitHubIssueData => some (.ok .vnil)
    | some _ => some (.error ())
    | none => some (.error ())

/-- The blob strategy's `MapFields` (src/unnamed/part_001, lines 201–234):
every logical field serialized into a single JSON object stored in the
shared blob field.  A Go nil commit slice serializes to JSON null.  The
timestamp is passed in as `now`. -/
def MapFields (cfg : MapperCfg) (now : String) (issue : GHIssue) : JiraFields :=
  { summary := issue.title
    description := issue.body
    status := none
    projectKey := cfg.projectKey
    unknowns :=
      [(cfg.cfk .gitHubIssueData, .vjson
        [("githubId", .jint issue.id),
         ("githubNumber", .jint issue.number),
         ("githubStatus", .jstr issue.state),
         ("githubReporter", .jstr issue.userLogin),
         ("githubLabels", .jstr (joinComma issue.labels)),
         ("githubCommits", match issue.commitIds with
           | none => .jnull
           | some l => .jarr l),
         ("lastIssueSyncUpdate", .jstr now)])] }

end JsonFieldMapper

/-- One step of Go's short-circuiting `a = a || f(...)` where the right
operand is a call that may itself panic: when `b` is already true the call
is skipped entirely. -/
def orShortCircuit (b : Bool) (f : Unit → Option Bool) : Option Bool :=
  if b then some true else f ()

/-- The helper `jiraCustomFieldsNeedUpdate` (lib/issues.go, lines 75–90):
a read error forces an update; a nil value is equal to the empty string;
otherwise the value is cast to string (`.(string)`, panicking on any other
type) and compared.  `none` models the panic. -/
def jiraCustomFieldsNeedUpdate (getFV : GetFV) (jIssue : JiraIssue)
    (fieldKey : FieldKey) (githubFieldValue : String) : Option Bool :=
  match getFV jIssue fieldKey with
  | none => none
  | some (.error _) => some true
  | some (.ok .vnil) => some (githubFieldValue.length ≠ 0)
  | some (.ok (.vstr s)) => some (s ≠ githubFieldValue)
  | some (.ok _) => none

/-- The decision predicate `DidIssueChange` (lib/issues.go, lines 94–130),
step for step: title, body, status field, reporter field; then an
unconditional read of the commits field (read error returns `true`
immediately; the `[]interface{}` cast panics on a non-list); then the
commit-list comparison, the label-join comparison, and — when the GitHub
issue has a project card — the case-insensitive board-column versus
workflow-status comparison, which dereferences `Fields.Status.Name`
without a nil guard.  Go's `||` short-circuiting is preserved, so later
operands (including that dereference) are not evaluated once a difference
is found.  Elements of the JIRA commit list are strings, on which
`fmt.Sprint` is the identity.  `none` models a panic. -/
def DidIssueChange (getFV : GetFV) (ghIssue : GHIssue) (jIssue : JiraIssue) :
    Option Bool :=
  match jIssue.fields with
  | none => none
  | some jf =>
    let a1 := ghIssue.title ≠ jf.summary
    let a2 := a1 || ghIssue.body ≠ jf.description
    match orShortCircuit a2
        (fun _ => jiraCustomFieldsNeedUpdate getFV jIssue .gitHubStatus ghIssue.state) with
    | none => none
    | some a3 =>
      match orShortCircuit a3
          (fun _ => jiraCustomFieldsNeedUpdate getFV jIssue .gitHubReporter ghIssue.userLogin) with
      | none => none
      | some a4 =>
        match getFV jIssue .gitHubCommits with
        | none => none
        | some (.error _) => some true
        | some (.ok commits) =>
          match commits with
          | .vlist commitIdsInJira =>
            let a5 := a4 || ¬ SliceStringsEq (some commitIdsInJira) ghIssue.commitIds
            match orShortCircuit a5
                (fun _ => jiraCustomFieldsNeedUpdate getFV jIssue .gitHubLabels
                  (joinComma ghIssue.labels)) with
            | none => none
            | some a6 =>
              if a6 then some true
              else
                match ghIssue.projectCard with
                | none => some false
                | some columnName =>
                  match jf.status with
                  | none => none
                  | some st => some (toLowerStr st.name ≠ toLowerStr columnName)
          | _ => none

/-- A JIRA workflow transition (`jira.Transition`): its identifier and the
name of its destination status (`To.Name`). -/
structure JTransition where
  id : String
  toName : String
deriving DecidableEq, Repr

/-- Remote calls issued against the target tracker, recorded as a trace. -/
inductive RemoteCall where
  | getTransitionsCall (issueId : String)
  | applyTransitionCall (issueId : String) (transitionId : String)
  | updateIssueCall (issue : JiraIssue)
  | createIssueCall (fields : JiraFields)
  | getIssueCall (key : String)
  | compareCommentsCall (key : String)
deriving DecidableEq, Repr

/-- Whether a remote call writes ticket fields or moves workflow state. -/
def RemoteCall.isTicketWrite : RemoteCall → Bool
  | .applyTransitionCall _ _ => true
  | .updateIssueCall _ => true
  | .createIssueCall _ => true
  | _ => false

/-- Error outcomes of `TryApplyTransitionWithStatusName`. -/
inductive TransitionError where
  | remoteErr
  | noSuchTransition
deriving DecidableEq, Repr

/-- Oracle for the target tracker's remote operations: what each remote
call would return.  The engine under verification decides which of these
to invoke and in which order. -/
structure JiraRemote where
  transitions : Except Unit (List JTransition)
  applyResult : JTransition → Except Unit Unit
  updateResult : JiraIssue → Except Unit JiraIssue
  getResult : String → Except Unit JiraIssue
  commentsResult : Except Unit Unit

/-- The current status name read by `TryApplyTransitionWithStatusName`
(lib/issuesyncjira/jira.go, lines 912–917): a nil `Fields` or `Status`
pointer reads as the empty string, otherwise the lowercased status name. -/
def currentStatusNameOf (issue : JiraIssue) : String :=
  match issue.fields with
  | none => ""
  | some jf =>
    match jf.status with
    | none => ""
    | some st => toLowerStr st.name

/-- The transition routine `TryApplyTransitionWithStatusName`
(lib/issuesyncjira/jira.go, lines 908–946): if the lowercased current and
desired names agree, succeed without any remote call; otherwise list the
transitions and apply the first one whose destination name matches
case-insensitively, or fail with a no-such-transition error (applying
nothing) when none matches.  Returns the trace of remote calls made and
the result. -/
def TryApplyTransitionWithStatusName (remote : JiraRemote) (issue : JiraIssue)
    (statusName : String) : List RemoteCall × Except TransitionError Unit :=
  let currentStatusName := currentStatusNameOf issue
  let targetStatusName := toLowerStr statusName
  if currentStatusName = targetStatusName then ([], .ok ())
  else
    match remote.transitions with
    | .error _ => ([.getTransitionsCall issue.id], .error .remoteErr)
    | .ok transitions =>
      match transitions.find? (fun v => toLowerStr v.toName = targetStatusName) with
      | none => ([.getTransitionsCall issue.id], .error .noSuchTransition)
      | some v =>
        match remote.applyResult v with
        | .ok _ =>
          ([.getTransitionsCall issue.id, .applyTransitionCall issue.id v.id], .ok ())
        | .error _ =>
          ([.getTransitionsCall issue.id, .applyTransitionCall issue.id v.id],
            .error .remoteErr)

/-- Error outcomes of the per-pair update routine. -/
inductive EngineError where
  | mapErr
  | transitionFailed (e : TransitionError)
  | updateFailed
  | getFailed
  | commentsFailed
deriving DecidableEq, Repr

/-- The per-pair update routine `UpdateIssue` (lib/issues.go, lines
135–183): when `DidIssueChange` holds, map the fields, build an update
issue carrying only the target's key and identifier plus the mapped
fields, attempt the workflow transition first (when the GitHub issue has a
project card, returning its error before any update), then submit the
remote update; in both the changed and the unchanged case, re-fetch the
ticket by key and reconcile comments.  Returns the remote-call trace and
the result; `none` models a panic inside `DidIssueChange`. -/
def UpdateIssue (getFV : GetFV) (mapFields : GHIssue → Except Unit JiraFields)
    (remote : JiraRemote) (ghIssue : GHIssue) (jIssue : JiraIssue) :
    Option (List RemoteCall × Except EngineError Unit) :=
  match DidIssueChange getFV ghIssue jIssue with
  | none => none
  | some changed =>
    let fetchAndComments : List RemoteCall → Option (List RemoteCall × Except EngineError Unit) :=
      fun callsSoFar =>
        match remote.getResult jIssue.key with
        | .error _ => some (callsSoFar ++ [.getIssueCall jIssue.key], .error .getFailed)
        | .ok _ =>
          match remote.commentsResult with
          | .error _ =>
            some (callsSoFar ++ [.getIssueCall jIssue.key, .compareCommentsCall jIssue.key],
              .error .commentsFailed)
          | .ok _ =>
            some (callsSoFar ++ [.getIssueCall jIssue.key, .compareCommentsCall jIssue.key],
              .ok ())
    if changed then
      match mapFields ghIssue with
      | .error _ => some ([], .error .mapErr)
      | .ok fields =>
        let issue : JiraIssue := { fields := some fields, key := jIssue.key, id := jIssue.id }
        let afterTransition : List RemoteCall → Option (List RemoteCall × Except EngineError Unit) :=
          fun transCalls =>
            match remote.updateResult issue with
            | .error _ =>
              some (transCalls ++ [.updateIssueCall issue], .error .updateFailed)
            | .ok _ => fetchAndComments (transCalls ++ [.updateIssueCall issue])
        match ghIssue.projectCard with
        | some columnName =>
          match TryApplyTransitionWithStatusName remote jIssue columnName with
          | (calls, .error e) => some (calls, .error (.transitionFailed e))
          | (calls, .ok _) => afterTransition calls
        | none => afterTransition []
    else
      fetchAndComments []

/-- One per-issue outcome of the reconciliation loop: the issue was
matched to a ticket and updated, or unmatched and created; `failed`
records whether the call returned an error (which is only logged). -/
inductive SyncEvent where
  | updated (ghId : Int) (jKey : String) (failed : Bool)
  | created (ghNumber : Int) (failed : Bool)
deriving DecidableEq, Repr

/-- The inner matching loop of `CompareIssues` (lib/issues.go, lines
48–64): scan the JIRA issues linearly, skip (log and continue) any whose
GitHub-ID field cannot be read, and take the first whose ID equals the
GitHub issue's.  The `.(int64)` cast on a successfully read non-integer
value panics (`none`); `some none` means no match. -/
def findMatchingJira (getFV : GetFV) (ghId : Int) :
    List JiraIssue → Option (Option JiraIssue)
  | [] => some none
  | jIssue :: rest =>
    match getFV jIssue .gitHubID with
    | none => none
    | some (.error _) => findMatchingJira getFV ghId rest
    | some (.ok (.vint i)) =>
      if ghId = i then some (some jIssue) else findMatchingJira getFV ghId rest
    | some (.ok _) => none

/-- The body of `CompareIssues` after both listings succeed (lib/issues.go,
lines 46–72): for each GitHub issue in order, find its matching JIRA issue
and call the update routine, or the create routine when unmatched; an
error from either is logged (recorded in the event) and the loop continues
with the next issue.  `upd`/`crt` are the outcomes the two routines would
return.  The function returns one event per GitHub issue; `none` models a
panic in the matching loop. -/
def CompareIssuesLoop (getFV : GetFV)
    (upd : GHIssue → JiraIssue → Except EngineError Unit)
    (crt : GHIssue → Except EngineError Unit) :
    List GHIssue → List JiraIssue → Option (List SyncEvent)
  | [], _ => some []
  | ghIssue :: rest, jiraIssues =>
    match findMatchingJira getFV ghIssue.id jiraIssues with
    | none => none
    | some (some jIssue) =>
      let failed := match upd ghIssue jIssue with | .error _ => true | .ok _ => false
      (CompareIssuesLoop getFV upd crt rest jiraIssues).map
        (SyncEvent.updated ghIssue.id jIssue.key failed :: ·)
    | some none =>
      let failed := match crt ghIssue with | .error _ => true | .ok _ => false
      (CompareIssuesLoop getFV upd crt rest jiraIssues).map
        (SyncEvent.created ghIssue.number failed :: ·)

/-- Whether a sync event belongs to a given GitHub issue. -/
def SyncEvent.isFor : SyncEvent → GHIssue → Prop
  | .updated ghId _ _, gh => ghId = gh.id
  | .created n _, gh => n = gh.number

namespace Issuesyncjira

/-- The number of GitHub identifiers above which the JQL query string
would exceed the server's URI limit (`maxJQLIssueLength`,
lib/issuesyncjira/jira.go line 577). -/
def maxJQLIssueLength : Nat := 100

/-- The server-side filtered JQL query built by `ListIssues`
(lib/issuesyncjira/jira.go, lines 966–967): the project clause plus a
`cf[...] in (...)` clause embedding every identifier, comma-joined. -/
def mkFilteredJql (jiraProjectKey githubIdFieldId : String) (ids : List Int) : String :=
  "project=" ++ "'" ++ jiraProjectKey ++ "'" ++ " AND cf[" ++ githubIdFieldId ++
    "] in (" ++ joinComma (ids.map toString) ++ ")"

/-- The unfiltered project-wide JQL query (lib/issuesyncjira/jira.go, line
969). -/
def mkProjectJql (jiraProjectKey : String) : String :=
  "project=" ++ "'" ++ jiraProjectKey ++ "'"

/-- The client-side filter test applied to one returned ticket
(lib/issuesyncjira/jira.go, lines 1009–1018): read the GitHub-ID field;
a read error drops the ticket; on success the value is cast with
`.(int64)` inside the loop over identifiers — when the identifier list is
empty the loop body (and hence the cast) never runs, otherwise a non-int
value panics (`none`) — and the ticket is kept when some identifier
equals it. -/
def clientFilterStep (getFV : GetFV) (ghIssueIds : List Int) (v : JiraIssue) :
    Option Bool :=
  match getFV v .gitHubID with
  | none => none
  | some (.error _) => some false
  | some (.ok gv) =>
    match ghIssueIds with
    | [] => some false
    | _ =>
      match gv with
      | .vint i => some (ghIssueIds.contains i)
      | _ => none

/-- Filtering a list with a test that may panic: the whole computation
panics as soon as the test does. -/
def filterPanicky (p : α → Option Bool) : List α → Option (List α)
  | [] => some []
  | x :: xs =>
    match p x with
    | none => none
    | some b =>
      (filterPanicky p xs).map (fun rest => if b then x :: rest else rest)

/-- The ticket-listing routine `ListIssues` (lib/issuesyncjira/jira.go,
lines 951–1021).  The filtering path is chosen by mapping strategy and
identifier count: only the direct-field strategy with fewer than
`maxJQLIssueLength` identifiers uses the server-side filtered query;
otherwise the unfiltered project query is issued and the results are
filtered client-side through the field mapper.  The pre-pass that collects
each result's `Fields.Project.Key` (lines 983–992) dereferences a
possibly-nil `Fields` pointer, so a result ticket without fields panics
(`none`).  Returns the list of JQL queries issued together with the
result. -/
def ListIssues (isDefaultFieldMapper : Bool) (getFV : GetFV)
    (searchIssues : String → Except Unit (List JiraIssue))
    (jiraProjectKey githubIdFieldId : String) (ghIssueIds : List Int) :
    Option (List String × Except Unit (List JiraIssue)) :=
  let filterWithJql := isDefaultFieldMapper && ghIssueIds.length < maxJQLIssueLength
  let jql :=
    if filterWithJql then mkFilteredJql jiraProjectKey githubIdFieldId ghIssueIds
    else mkProjectJql jiraProjectKey
  match searchIssues jql with
  | .error _ => some ([jql], .error ())
  | .ok jiraIssues =>
    if jiraIssues.any (fun v => v.fields = none) then none
    else if filterWithJql then some ([jql], .ok jiraIssues)
    else
      (filterPanicky (clientFilterStep getFV ghIssueIds) jiraIssues).map
        (fun issues => ([jql], .ok issues))

end Issuesyncjira

namespace Issuesyncgithub

/-- A GitHub issue event as the collector sees it
(`github.IssueEvent`): its event name, the column name of its attached
project card when present, and its commit reference when present. -/
structure IssueEvent where
  event : String
  projectCardColumn : Option String
  commitId : Option String
deriving DecidableEq, Repr

/-- One step of the event fold in `getCurrentProjectCardAndCommitIds`
(lib/issuesyncgithub/github.go, lines 141–153): an added/moved event with
a card sets the current card, a removed event with a card clears it, any
other event leaves it; every commit reference is appended in order. -/
def processEvent (st : Option String × List String) (e : IssueEvent) :
    Option String × List String :=
  let card :=
    match e.projectCardColumn with
    | some c =>
      if e.event = "added_to_project" || e.event = "moved_columns_in_project" then some c
      else if e.event = "removed_from_project" then none
      else st.1
    | none => st.1
  let commits :=
    match e.commitId with
    | some cid => st.2 ++ [cid]
    | none => st.2
  (card, commits)

/-- The paginated event walk of `getCurrentProjectCardAndCommitIds`
(lib/issuesyncgithub/github.go, lines 118–160): the card and commit state
is carried across pages, so the whole walk is a left fold over the
concatenated event stream starting from no card and no commits. -/
def getCurrentProjectCardAndCommitIds (eventPages : List (List IssueEvent)) :
    Option String × List String :=
  eventPages.foldl (fun st page => page.foldl processEvent st) (none, [])

/-- A raw GitHub issue as returned by the listing API: its fields plus
whether it carries a pull-request linkage (`PullRequestLinks != nil`). -/
structure RawIssue where
  id : Int
  number : Int
  title : String
  body : String
  state : String
  userLogin : String
  labels : List String
  isPullRequest : Bool
deriving DecidableEq, Repr

/-- Build the collected issue from a raw issue and the derived card and
commit state (`models.ExtendedGithubIssue`); a Go nil commit slice stays
nil (`none`). -/
def extendIssue (v : RawIssue) (card : Option String) (commitIds : Option (List String)) :
    GHIssue :=
  { id := v.id, number := v.number, title := v.title, body := v.body,
    state := v.state, userLogin := v.userLogin, labels := v.labels,
    projectCard := card, commitIds := commitIds }

/-- The source collector `ListIssues` (lib/issuesyncgithub/github.go,
lines 163–207): walk the issue pages in order, drop every issue with a
pull-request linkage, and for each retained issue — when the repository
has project boards — replay its event stream to derive the current board
column and the accumulated commit ids (`eventsFor` gives the event pages
per issue number; `none` models the ignored fetch error, which leaves both
derived attributes nil).  Without board support both stay nil. -/
def ListIssues (hasProjects : Bool)
    (eventsFor : Int → Option (List (List IssueEvent)))
    (issuePages : List (List RawIssue)) : List GHIssue :=
  issuePages.foldl
    (fun issues page =>
      issues ++ (page.filter (fun v => ¬ v.isPullRequest)).map (fun v =>
        if hasProjects then
          match eventsFor v.number with
          | some eventPages =>
            let st := getCurrentProjectCardAndCommitIds eventPages
            extendIssue v st.1 (some st.2)
          | none => extendIssue v none none
        else extendIssue v none none))
    []

end Issuesyncgithub

namespace Utils

/-- The retry loop of `utils.Retry` (lib/utils/utils.go, lines 25–48),
which wraps `backoff.RetryNotify` with an exponential backoff bounded by
`MaxElapsedTime = timeout`.  Wall-clock time is modelled abstractly: the
`k`-th failed attempt is followed by a positive backoff pause of
`wait k + 1` time units, and the loop stops — returning the last failure —
once the next pause does not fit in the remaining budget.  `f k` is the
outcome of the `k`-th invocation of the wrapped operation; the result
records which attempt produced the returned value. -/
def retryLoop (f : Nat → Except E A) (wait : Nat → Nat) :
    Nat → Nat → Nat × Except E A
  | k, budget =>
    match f k with
    | .ok a => (k, .ok a)
    | .error e =>
      let d := wait k + 1
      if h : budget < d then (k, .error e)
      else retryLoop f wait (k + 1) (budget - d)
  termination_by _ budget => budget
  decreasing_by
    simp only [not_lt] at h
    omega

/-- `utils.Retry`: invoke the operation immediately (attempt 0), then
retry per `retryLoop` within the time budget `timeout`. -/
def Retry (f : Nat → Except E A) (wait : Nat → Nat) (timeout : Nat) :
    Nat × Except E A :=
  retryLoop f wait 0 timeout

end Utils

/-! ### Spec-side definitions and concrete fixtures -/

namespace Issuesyncgithub

/-- Whether an event affects the current-board-column state of the fold:
it carries a project card and is an added/moved/removed event. -/
def eventAffectsCard (e : IssueEvent) : Bool :=
  e.projectCardColumn.isSome &&
    (e.event = "added_to_project" || e.event = "moved_columns_in_project" ||
      e.event = "removed_from_project")

/-- Board column as the specification describes it: the column set by the
last added-to-project or moved-columns event not followed by a
removed-from-project event; absent when a removal comes last or no
placement ever happened.  (The spec's wording, for comparison with the
implementation's fold.) -/
def specBoardColumn (evs : List IssueEvent) : Option String :=
  match evs.reverse.find? eventAffectsCard with
  | some e => if e.event = "removed_from_project" then none else e.projectCardColumn
  | none => none

/-- Commit ids as the specification describes them: every event's commit
reference, in event order, without de-duplication. -/
def specCommitIds (evs : List IssueEvent) : List String :=
  evs.filterMap (fun e => e.commitId)

/-- The card component of one fold step, in isolation. -/
def cardStep (card : Option String) (e : IssueEvent) : Option String :=
  match e.projectCardColumn with
  | some c =>
    if e.event = "added_to_project" || e.event = "moved_columns_in_project" then some c
    else if e.event = "removed_from_project" then none
    else card
  | none => card

end Issuesyncgithub

namespace Utils

/-- Total time consumed by `j` failed attempts starting at attempt `k`:
each failure is followed by its (positive) backoff pause. -/
def waitSum (wait : Nat → Nat) (k : Nat) : Nat → Nat
  | 0 => 0
  | j + 1 => (wait k + 1) + waitSum wait (k + 1) j

end Utils

/-- Test recognizing a transition-application call in a trace. -/
def isApplyCall : RemoteCall → Bool
  | .applyTransitionCall _ _ => true
  | _ => false

/-- The GitHub-ID field of a ticket reads back without a panic: either a
read error (which the matching loop logs and skips) or an integer. -/
def goodIDRead (getFV : GetFV) (j : JiraIssue) : Prop :=
  getFV j .gitHubID = some (.error ()) ∨ ∃ i, getFV j .gitHubID = some (.ok (.vint i))

/-- The JQL server-side filter semantics, as seen through the field
mapper: a ticket matches when its GitHub-ID field reads back as an integer
contained in the identifier list.  Used to state the assumption that the
server's filtered query returns exactly the matching tickets of the
project. -/
def serverMatch (getFV : GetFV) (ghIssueIds : List Int) (t : JiraIssue) : Bool :=
  match getFV t .gitHubID with
  | some (.ok (.vint i)) => ghIssueIds.contains i
  | _ => false

/-- A concrete resolved field mapping with pairwise distinct physical
keys. -/
def fixCfg : MapperCfg :=
  { cfk := fun k => match k with
      | .gitHubID => "customfield_001"
      | .gitHubNumber => "customfield_002"
      | .gitHubLabels => "customfield_003"
      | .gitHubStatus => "customfield_004"
      | .gitHubReporter => "customfield_005"
      | .gitHubCommits => "customfield_006"
      | .gitHubIssueData => "customfield_007"
      | .lastISUpdate => "customfield_008"
    projectKey := "TPK" }

/-- A concrete GitHub issue with a board column and one commit. -/
def fixGhEqual : GHIssue :=
  { id := 5, number := 7, title := "Fix crash", body := "It crashes", state := "open",
    userLogin := "alice", labels := ["a", "b"], projectCard := some "In Progress",
    commitIds := some ["c1"] }

/-- A ticket agreeing with `fixGhEqual` on every compared field, under the
direct-field strategy with `fixCfg`. -/
def fixTicketEqual : JiraIssue :=
  { key := "TPK-1", id := "10001",
    fields := some
      { summary := "Fix crash", description := "It crashes",
        status := some ⟨"In Progress"⟩, projectKey := "TPK",
        unknowns :=
          [(fixCfg.cfk .gitHubID, .vint 5),
           (fixCfg.cfk .gitHubStatus, .vstr "open"),
           (fixCfg.cfk .gitHubReporter, .vstr "alice"),
           (fixCfg.cfk .gitHubLabels, .vstr "a,b"),
           (fixCfg.cfk .gitHubCommits, .vlist ["c1"])] } }

/-- The same ticket but with a nil workflow status pointer. -/
def fixTicketEqualNoStatus : JiraIssue :=
  { key := "TPK-1", id := "10001",
    fields := some
      { summary := "Fix crash", description := "It crashes",
        status := none, projectKey := "TPK",
        unknowns :=
          [(fixCfg.cfk .gitHubID, .vint 5),
           (fixCfg.cfk .gitHubStatus, .vstr "open"),
           (fixCfg.cfk .gitHubReporter, .vstr "alice"),
           (fixCfg.cfk .gitHubLabels, .vstr "a,b"),
           (fixCfg.cfk .gitHubCommits, .vlist ["c1"])] } }

/-- A ticket with a differing summary, a nil status pointer and no custom
fields. -/
def fixTicketOtherTitleNoStatus : JiraIssue :=
  { key := "TPK-2", id := "10002",
    fields := some
      { summary := "Other title", description := "It crashes",
        status := none, projectKey := "TPK", unknowns := [] } }

/-- The same issue as `fixGhEqual` but with a different title, so the pair
has changed. -/
def fixGhChanged : GHIssue :=
  { fixGhEqual with title := "New title" }

/-- A ticket whose current workflow status is "Open" and whose custom
fields agree with `fixGhEqual`. -/
def fixTicketOpen : JiraIssue :=
  { key := "TPK-5", id := "10005",
    fields := some
      { summary := "Fix crash", description := "It crashes",
        status := some ⟨"Open"⟩, projectKey := "TPK",
        unknowns :=
          [(fixCfg.cfk .gitHubID, .vint 5),
           (fixCfg.cfk .gitHubStatus, .vstr "open"),
           (fixCfg.cfk .gitHubReporter, .vstr "alice"),
           (fixCfg.cfk .gitHubLabels, .vstr "a,b"),
           (fixCfg.cfk .gitHubCommits, .vlist ["c1"])] } }

/-- A remote oracle on which every call succeeds. -/
def fixRemoteOk : JiraRemote :=
  { transitions := .ok [], applyResult := fun _ => .ok (),
    updateResult := fun i => .ok i,
    getResult := fun _ => .ok fixTicketEqual, commentsResult := .ok () }

/-- A GitHub issue whose identifier, 2^53 + 1, is not representable in a
64-bit float. -/
def fixBigIssue : GHIssue :=
  { id := 9007199254740993, number := 1, title := "t", body := "b", state := "open",
    userLogin := "u", labels := [], projectCard := none, commitIds := none }

/-- A remote oracle whose only listed transition does not lead to the
desired status, so the transition attempt fails with no-such-transition. -/
def fixRemoteNoMatch : JiraRemote :=
  { transitions := .ok [⟨"t1", "Elsewhere"⟩], applyResult := fun _ => .ok (),
    updateResult := fun i => .ok i, getResult := fun _ => .ok fixTicketEqual,
    commentsResult := .ok () }

/-- A remote oracle with a transition leading (case-insensitively) to
"In Progress". -/
def fixRemoteMatch : JiraRemote :=
  { transitions := .ok [⟨"t1", "Elsewhere"⟩, ⟨"t2", "IN PROGRESS"⟩],
    applyResult := fun _ => .ok (), updateResult := fun i => .ok i,
    getResult := fun _ => .ok fixTicketEqual, commentsResult := .ok () }

/-- A ticket storing its GitHub id in the blob field, for the blob-path
witness. -/
def fixTicketJson : JiraIssue :=
  { key := "TPK-6", id := "10006",
    fields := some
      { summary := "s", description := "d", status := none, projectKey := "TPK",
        unknowns := [(fixCfg.cfk .gitHubIssueData, .vjson [("githubId", .jint 5)])] } }

/-! ### Helper notions used by the theorems -/

/-- A mapper read agrees with a GitHub string value in the sense of the
comparison predicate: it returns exactly that string, or it returns nil
while the GitHub value is empty (the predicate treats those as equal). -/
def fieldValueMatches (fv : Option (Except Unit GoVal)) (ghVal : String) : Prop :=
  fv = some (.ok (.vstr ghVal)) ∨ (fv = some (.ok .vnil) ∧ ghVal = "")

theorem jiraCustomFieldsNeedUpdate_eq_false {getFV : GetFV} {j : JiraIssue}
    {k : FieldKey} {v : String} (h : fieldValueMatches (getFV j k) v) :
    jiraCustomFieldsNeedUpdate getFV j k v = some false := by
  unfold jiraCustomFieldsNeedUpdate
  rcases h with h | ⟨h, rfl⟩ <;> rw [h] <;> simp

theorem orShortCircuit_false {f : Unit → Option Bool} :
    orShortCircuit false f = f () := rfl

theorem orShortCircuit_true {f : Unit → Option Bool} :
    orShortCircuit true f = some true := rfl

/-! ### C1 -/

/-- C1.  For every pair of a source issue and its matched target ticket in
which every compared field is equal — title equals summary, body equals
description, status, reporter, the comma-joined label string, the
commit-id list with nil treated as empty, and, when the issue has a board
column, its name case-insensitively equal to the ticket's workflow status
name — `DidIssueChange` returns `false`, and `UpdateIssue` completes
without a panic and performs no write call (no ticket update, create, or
transition), under both mapping strategies. -/
theorem DidIssueChange_false_and_no_write_of_fields_equal
    (cfg : MapperCfg) (getFV : GetFV) (gh : GHIssue) (j : JiraIssue) (jf : JiraFields)
    (hstrat : getFV = DefaultFieldMapper.GetFieldValue cfg ∨
      getFV = JsonFieldMapper.GetFieldValue cfg)
    (hf : j.fields = some jf)
    (htitle : gh.title = jf.summary)
    (hbody : gh.body = jf.description)
    (hstatus : fieldValueMatches (getFV j .gitHubStatus) gh.state)
    (hreporter : fieldValueMatches (getFV j .gitHubReporter) gh.userLogin)
    (hlabels : fieldValueMatches (getFV j .gitHubLabels) (joinComma gh.labels))
    (hcommits : ∃ xs, getFV j .gitHubCommits = some (.ok (.vlist xs)) ∧
      SliceStringsEq (some xs) gh.commitIds = true)
    (hcard : ∀ col, gh.projectCard = some col →
      ∃ st, jf.status = some st ∧ toLowerStr st.name = toLowerStr col) :
    DidIssueChange getFV gh j = some false ∧
    ∀ (mapFields : GHIssue → Except Unit JiraFields) (remote : JiraRemote),
      ∃ result, UpdateIssue getFV mapFields remote gh j = some result ∧
        ∀ c ∈ result.1, c.isTicketWrite = false := by
  clear hstrat
  obtain ⟨xs, hxs, hslice⟩ := hcommits
  have hch : DidIssueChange getFV gh j = some false := by
    unfold DidIssueChange
    rw [hf]
    simp only [htitle, hbody, jiraCustomFieldsNeedUpdate_eq_false hstatus,
      jiraCustomFieldsNeedUpdate_eq_false hreporter,
      jiraCustomFieldsNeedUpdate_eq_false hlabels, hxs, hslice, orShortCircuit]
    simp only [ne_eq, not_true, decide_not]
    simp
    cases hpc : gh.projectCard with
    | none => rfl
    | some col =>
      obtain ⟨st, hst, hname⟩ := hcard col hpc
      rw [hst]
      simp [hname]
  refine ⟨hch, ?_⟩
  intro mapFields remote
  have hupd : UpdateIssue getFV mapFields remote gh j =
      match remote.getResult j.key with
      | .error _ => some ([.getIssueCall j.key], .error .getFailed)
      | .ok _ =>
        match remote.commentsResult with
        | .error _ =>
          some ([.getIssueCall j.key, .compareCommentsCall j.key], .error .commentsFailed)
        | .ok _ => some ([.getIssueCall j.key, .compareCommentsCall j.key], .ok ()) := by
    unfold UpdateIssue
    rw [hch]
    cases remote.getResult j.key <;> rfl
  rw [hupd]
  cases hg : remote.getResult j.key with
  | error e =>
    refine ⟨_, rfl, ?_⟩
    intro c hc
    simp only [List.mem_singleton] at hc
    subst hc
    rfl
  | ok u =>
    cases hcm : remote.commentsResult with
    | error e =>
      refine ⟨_, rfl, ?_⟩
      intro c hc
      simp only [List.mem_cons, List.not_mem_nil, or_false] at hc
      rcases hc with rfl | rfl <;> rfl
    | ok u' =>
      refine ⟨_, rfl, ?_⟩
      intro c hc
      simp only [List.mem_cons, List.not_mem_nil, or_false] at hc
      rcases hc with rfl | rfl <;> rfl

/-- Witness for C1: the hypotheses of
`DidIssueChange_false_and_no_write_of_fields_equal` are satisfied by the
concrete pair `fixGhEqual`/`fixTicketEqual` under the direct-field
strategy, and the conclusion evaluates there. -/
theorem DidIssueChange_false_and_no_write_of_fields_equal_witness :
    DidIssueChange (DefaultFieldMapper.GetFieldValue fixCfg) fixGhEqual fixTicketEqual
      = some false ∧
    ∃ result,
      UpdateIssue (DefaultFieldMapper.GetFieldValue fixCfg)
          (fun i => .ok (DefaultFieldMapper.MapFields fixCfg "2024-01-01" i))
          fixRemoteOk fixGhEqual fixTicketEqual = some result ∧
      ∀ c ∈ result.1, c.isTicketWrite = false := by
  have h := DidIssueChange_false_and_no_write_of_fields_equal fixCfg
    (DefaultFieldMapper.GetFieldValue fixCfg) fixGhEqual fixTicketEqual
    ⟨"Fix crash", "It crashes", some ⟨"In Progress"⟩, "TPK",
      [(fixCfg.cfk .gitHubID, .vint 5),
       (fixCfg.cfk .gitHubStatus, .vstr "open"),
       (fixCfg.cfk .gitHubReporter, .vstr "alice"),
       (fixCfg.cfk .gitHubLabels, .vstr "a,b"),
       (fixCfg.cfk .gitHubCommits, .vlist ["c1"])]⟩
    (Or.inl rfl) rfl rfl rfl (Or.inl rfl) (Or.inl rfl) (Or.inl rfl)
    ⟨["c1"], rfl, rfl⟩
    (fun col hcol => by
      cases hcol
      exact ⟨⟨"In Progress"⟩, rfl, rfl⟩)
  exact ⟨h.1, h.2 (fun i => .ok (DefaultFieldMapper.MapFields fixCfg "2024-01-01" i))
    fixRemoteOk⟩

/-! ### C10 -/

/-- C10, counterexample to the claim as stated.  The claim asserts that
*every* comparison of an issue that has a board column against a ticket
lacking a workflow status panics.  It does not: Go's `||` short-circuits,
so once an earlier compared field differs (here the title), the
board-column comparison — and with it the nil dereference of
`Fields.Status` — is never evaluated, and `DidIssueChange` returns the
boolean `true`. -/
theorem DidIssueChange_missing_status_counterexample :
    fixGhEqual.projectCard = some "In Progress" ∧
    (fixTicketOtherTitleNoStatus.fields.map (fun jf => jf.status)) = some none ∧
    DidIssueChange (DefaultFieldMapper.GetFieldValue fixCfg) fixGhEqual
      fixTicketOtherTitleNoStatus = some true :=
  ⟨rfl, rfl, rfl⟩

/-- C10, amended.  `DidIssueChange` dereferences `Fields.Status.Name`
with no nil guard (unlike `TryApplyTransitionWithStatusName`, which treats
a nil `Fields` or `Status` as an empty current status name), so it is
total only when the ticket has a status whenever the issue carries a board
column; but the dereference is reached only when no earlier compared field
differs.  Amended statement: for every comparison of an issue that has a
board column against a ticket lacking a status in which every earlier
compared field is equal (so that the short-circuit evaluation reaches the
board-column comparison), the function panics instead of returning a
boolean, and the panic propagates through `UpdateIssue`. -/
theorem DidIssueChange_panics_of_missing_status
    (getFV : GetFV) (gh : GHIssue) (j : JiraIssue) (jf : JiraFields) (col : String)
    (hf : j.fields = some jf)
    (hst : jf.status = none)
    (hpc : gh.projectCard = some col)
    (htitle : gh.title = jf.summary)
    (hbody : gh.body = jf.description)
    (hstatus : fieldValueMatches (getFV j .gitHubStatus) gh.state)
    (hreporter : fieldValueMatches (getFV j .gitHubReporter) gh.userLogin)
    (hlabels : fieldValueMatches (getFV j .gitHubLabels) (joinComma gh.labels))
    (hcommits : ∃ xs, getFV j .gitHubCommits = some (.ok (.vlist xs)) ∧
      SliceStringsEq (some xs) gh.commitIds = true) :
    DidIssueChange getFV gh j = none ∧
    ∀ (mapFields : GHIssue → Except Unit JiraFields) (remote : JiraRemote),
      UpdateIssue getFV mapFields remote gh j = none := by
  obtain ⟨xs, hxs, hslice⟩ := hcommits
  have hch : DidIssueChange getFV gh j = none := by
    unfold DidIssueChange
    rw [hf]
    simp only [htitle, hbody, jiraCustomFieldsNeedUpdate_eq_false hstatus,
      jiraCustomFieldsNeedUpdate_eq_false hreporter,
      jiraCustomFieldsNeedUpdate_eq_false hlabels, hxs, hslice, orShortCircuit]
    simp only [ne_eq, not_true, decide_not]
    simp [hpc, hst]
  refine ⟨hch, fun mapFields remote => ?_⟩
  unfold UpdateIssue
  rw [hch]

/-- Witness for the amended C10: the panic occurs on the concrete pair
`fixGhEqual`/`fixTicketEqualNoStatus` — every earlier field equal, board
column present, status pointer nil. -/
theorem DidIssueChange_panics_of_missing_status_witness :
    DidIssueChange (DefaultFieldMapper.GetFieldValue fixCfg) fixGhEqual
      fixTicketEqualNoStatus = none ∧
    UpdateIssue (DefaultFieldMapper.GetFieldValue fixCfg)
      (fun i => .ok (DefaultFieldMapper.MapFields fixCfg "2024-01-01" i))
      fixRemoteOk fixGhEqual fixTicketEqualNoStatus = none := by
  have h := DidIssueChange_panics_of_missing_status
    (DefaultFieldMapper.GetFieldValue fixCfg) fixGhEqual fixTicketEqualNoStatus
    ⟨"Fix crash", "It crashes", none, "TPK",
      [(fixCfg.cfk .gitHubID, .vint 5),
       (fixCfg.cfk .gitHubStatus, .vstr "open"),
       (fixCfg.cfk .gitHubReporter, .vstr "alice"),
       (fixCfg.cfk .gitHubLabels, .vstr "a,b"),
       (fixCfg.cfk .gitHubCommits, .vlist ["c1"])]⟩
    "In Progress" rfl rfl rfl rfl rfl (Or.inl rfl) (Or.inl rfl) (Or.inl rfl)
    ⟨["c1"], rfl, rfl⟩
  exact ⟨h.1, h.2 (fun i => .ok (DefaultFieldMapper.MapFields fixCfg "2024-01-01" i))
    fixRemoteOk⟩

/-! ### C5 -/

theorem roundDouble_eq_self {n : Int} (h : n.natAbs ≤ 2 ^ 53) : roundDouble n = n := by
  unfold roundDouble roundDoubleNat
  have h' : n.natAbs ≤ 9007199254740992 := by omega
  by_cases h0 : 0 ≤ n
  · simp [h0, h', Int.natAbs_of_nonneg h0]
  · have h1 : n ≤ 0 := le_of_not_le h0
    simp [h0, h', Int.ofNat_natAbs_of_nonpos h1]

/-- C5, amended.  Reading the SourceID logical field back out of the field
set produced by `MapFields` yields the issue's identifier: under the
direct-field strategy for *every* identifier — given only that strategy's
own premise, that the resolved mapping stores each logical field as its
own physical custom field, so no other field's physical key equals the
GitHub-ID key — and under the blob strategy whenever the identifier is
exactly representable in a 64-bit float (|id| ≤ 2^53), the blob strategy
deserializing the JSON number into a `float64`, which rounds identifiers
beyond 53 bits of magnitude.  Each conjunct carries exactly its own
hypothesis: the direct-field conjunct has no size bound. -/
theorem GetFieldValue_MapFields_roundtrip_id
    (cfg : MapperCfg) (now key ident : String) (issue : GHIssue) :
    ((∀ k : FieldKey, cfg.cfk k = cfg.cfk .gitHubID → k = .gitHubID) →
      DefaultFieldMapper.GetFieldValue cfg
          ⟨key, ident, some (DefaultFieldMapper.MapFields cfg now issue)⟩ .gitHubID
        = some (.ok (.vint issue.id))) ∧
    (issue.id.natAbs ≤ 2 ^ 53 →
      JsonFieldMapper.GetFieldValue cfg
          ⟨key, ident, some (JsonFieldMapper.MapFields cfg now issue)⟩ .gitHubID
        = some (.ok (.vint issue.id))) := by
  constructor
  · intro hdist
    have hne : ∀ k : FieldKey, k ≠ .gitHubID → ¬ (cfg.cfk k = cfg.cfk .gitHubID) :=
      fun k hk hh => hk (hdist k hh)
    have h1 := hne .lastISUpdate (by decide)
    have h2 := hne .gitHubLabels (by decide)
    have h3 := hne .gitHubReporter (by decide)
    have h4 := hne .gitHubStatus (by decide)
    have h5 := hne .gitHubNumber (by decide)
    simp [DefaultFieldMapper.GetFieldValue, DefaultFieldMapper.MapFields, ukValue,
      List.find?, h1, h2, h3, h4, h5]
  · intro hrep
    simp [JsonFieldMapper.GetFieldValue, JsonFieldMapper.MapFields, ukValue,
      List.find?, jsonLookup, roundDouble_eq_self hrep]

/-- Witness for the amended C5: the direct-field round-trip succeeds even
at the identifier 2^53 + 1 (the very id on which the blob strategy fails),
and the blob round-trip succeeds at an identifier within 53 bits. -/
theorem GetFieldValue_MapFields_roundtrip_id_witness :
    DefaultFieldMapper.GetFieldValue fixCfg
        ⟨"TPK-3", "10003", some (DefaultFieldMapper.MapFields fixCfg "2024-01-01" fixBigIssue)⟩
        .gitHubID = some (.ok (.vint 9007199254740993)) ∧
    JsonFieldMapper.GetFieldValue fixCfg
        ⟨"TPK-1", "10001", some (JsonFieldMapper.MapFields fixCfg "2024-01-01" fixGhEqual)⟩
        .gitHubID = some (.ok (.vint 5)) :=
  ⟨(GetFieldValue_MapFields_roundtrip_id fixCfg "2024-01-01" "TPK-3" "10003" fixBigIssue).1
      (fun k => by cases k <;> simp [fixCfg]),
   (GetFieldValue_MapFields_roundtrip_id fixCfg "2024-01-01" "TPK-1" "10001" fixGhEqual).2
      (by decide)⟩

theorem roundDouble_pow53_succ : roundDouble 9007199254740993 = 9007199254740992 := by
  have hlog : Nat.log2 9007199254740993 = 53 := by
    rw [Nat.log2_eq_log_two]
    exact Nat.log_eq_of_pow_le_of_lt_pow (by norm_num) (by norm_num)
  unfold roundDouble roundDoubleNat
  rw [show ((9007199254740993 : Int).natAbs) = 9007199254740993 from rfl, hlog]
  decide

/-- C5, counterexample to the claim as stated.  Under the blob strategy
the identifier is serialized as a JSON number and read back through Go's
`json.Unmarshal`, which produces a `float64`: for the issue id 2^53 + 1 =
9007199254740993 the value read back is 9007199254740992, not the issue's
identifier, so the round-trip fails. -/
theorem json_roundtrip_id_counterexample :
    fixBigIssue.id = 9007199254740993 ∧
    JsonFieldMapper.GetFieldValue fixCfg
        ⟨"TPK-3", "10003", some (JsonFieldMapper.MapFields fixCfg "2024-01-01" fixBigIssue)⟩
        .gitHubID = some (.ok (.vint 9007199254740992)) ∧
    (9007199254740992 : Int) ≠ 9007199254740993 := by
  refine ⟨rfl, ?_, by decide⟩
  simp [JsonFieldMapper.GetFieldValue, JsonFieldMapper.MapFields, ukValue,
    List.find?, jsonLookup]
  have hid : fixBigIssue.id = 9007199254740993 := rfl
  rw [hid, roundDouble_pow53_succ]

/-! ### C8 -/

/-- C8.  Under the blob strategy, for every ticket whose stored blob
parses successfully to a JSON object that omits the commits key,
`GetFieldValue` for SourceCommits returns an empty list, not an
absent/nil value. -/
theorem JsonFieldMapper_GetFieldValue_commits_empty_of_missing
    (cfg : MapperCfg) (key ident : String) (jf : JiraFields) (o : JObj)
    (hblob : ukValue jf.unknowns (cfg.cfk .gitHubIssueData) = some (.vjson o))
    (hmiss : jsonLookup o "githubCommits" = none) :
    JsonFieldMapper.GetFieldValue cfg ⟨key, ident, some jf⟩ .gitHubCommits
      = some (.ok (.vlist [])) := by
  simp [JsonFieldMapper.GetFieldValue, hblob, hmiss]

/-- Witness for C8: a concrete ticket whose blob holds only an id. -/
theorem JsonFieldMapper_GetFieldValue_commits_empty_of_missing_witness :
    JsonFieldMapper.GetFieldValue fixCfg
      ⟨"TPK-4", "10004",
        some { summary := "s", description := "d", status := none, projectKey := "TPK",
               unknowns := [(fixCfg.cfk .gitHubIssueData, .vjson [("githubId", .jint 1)])] }⟩
      .gitHubCommits = some (.ok (.vlist [])) :=
  JsonFieldMapper_GetFieldValue_commits_empty_of_missing fixCfg "TPK-4" "10004"
    { summary := "s", description := "d", status := none, projectKey := "TPK",
      unknowns := [(fixCfg.cfk .gitHubIssueData, .vjson [("githubId", .jint 1)])] }
    [("githubId", .jint 1)] rfl rfl

/-! ### C6 -/

/-- C6.  `TryApplyTransitionWithStatusName` returns success without any
remote call when the ticket's current status name case-insensitively
equals the desired name; otherwise it lists the available transitions and
applies the first whose destination status name case-insensitively equals
the desired name; when no listed transition's destination matches it
returns a no-such-transition error without applying any transition; and in
every case it applies at most one transition (never multi-hop). -/
theorem TryApplyTransitionWithStatusName_spec
    (remote : JiraRemote) (issue : JiraIssue) (statusName : String) :
    (currentStatusNameOf issue = toLowerStr statusName →
      TryApplyTransitionWithStatusName remote issue statusName = ([], .ok ())) ∧
    (currentStatusNameOf issue ≠ toLowerStr statusName →
      ∀ ts, remote.transitions = .ok ts →
        (ts.find? (fun v => toLowerStr v.toName = toLowerStr statusName) = none →
          TryApplyTransitionWithStatusName remote issue statusName
            = ([.getTransitionsCall issue.id], .error .noSuchTransition)) ∧
        (∀ v, ts.find? (fun v => toLowerStr v.toName = toLowerStr statusName) = some v →
          (TryApplyTransitionWithStatusName remote issue statusName).1
            = [.getTransitionsCall issue.id, .applyTransitionCall issue.id v.id] ∧
          (remote.applyResult v = .ok () →
            TryApplyTransitionWithStatusName remote issue statusName
              = ([.getTransitionsCall issue.id, .applyTransitionCall issue.id v.id],
                  .ok ())))) ∧
    (TryApplyTransitionWithStatusName remote issue statusName).1.countP isApplyCall ≤ 1 := by
  refine ⟨?_, ?_, ?_⟩
  · intro h
    simp only [TryApplyTransitionWithStatusName]
    rw [if_pos h]
  · intro h ts hts
    constructor
    · intro hfind
      simp only [TryApplyTransitionWithStatusName]
      rw [if_neg h]
      simp only [hts, hfind]
    · intro v hfind
      constructor
      · simp only [TryApplyTransitionWithStatusName]
        rw [if_neg h]
        simp only [hts, hfind]
        cases remote.applyResult v <;> rfl
      · intro happ
        simp only [TryApplyTransitionWithStatusName]
        rw [if_neg h]
        simp only [hts, hfind, happ]
  · simp only [TryApplyTransitionWithStatusName]
    by_cases h : currentStatusNameOf issue = toLowerStr statusName
    · rw [if_pos h]
      simp
    · rw [if_neg h]
      cases hts : remote.transitions with
      | error e => simp [List.countP, List.countP.go, isApplyCall]
      | ok ts =>
        cases hfind : ts.find? (fun v => toLowerStr v.toName = toLowerStr statusName) with
        | none => simp [hfind, List.countP, List.countP.go, isApplyCall]
        | some v =>
          cases happ : remote.applyResult v <;>
            simp [hfind, happ, List.countP, List.countP.go, isApplyCall]

/-- Witness for C6: the concrete no-op, first-match and no-match cases all
evaluate as the specification states.  The ticket's status is "Open"; the
desired status "In Progress" matches the second listed transition by a
case-insensitive comparison. -/
theorem TryApplyTransitionWithStatusName_spec_witness :
    TryApplyTransitionWithStatusName
        { transitions := .ok [⟨"t1", "Elsewhere"⟩, ⟨"t2", "IN PROGRESS"⟩],
          applyResult := fun _ => .ok (), updateResult := fun i => .ok i,
          getResult := fun _ => .ok fixTicketEqual, commentsResult := .ok () }
        fixTicketOpen "In Progress"
      = ([.getTransitionsCall "10005", .applyTransitionCall "10005" "t2"], .ok ()) ∧
    TryApplyTransitionWithStatusName
        { transitions := .ok [⟨"t1", "Elsewhere"⟩],
          applyResult := fun _ => .ok (), updateResult := fun i => .ok i,
          getResult := fun _ => .ok fixTicketEqual, commentsResult := .ok () }
        fixTicketOpen "In Progress"
      = ([.getTransitionsCall "10005"], .error .noSuchTransition) ∧
    TryApplyTransitionWithStatusName
        { transitions := .ok [⟨"t1", "Elsewhere"⟩],
          applyResult := fun _ => .ok (), updateResult := fun i => .ok i,
          getResult := fun _ => .ok fixTicketEqual, commentsResult := .ok () }
        fixTicketOpen "open"
      = ([], .ok ()) := by
  refine ⟨?_, ?_, ?_⟩
  · exact ((TryApplyTransitionWithStatusName_spec _ fixTicketOpen "In Progress").2.1
      (by decide) _ rfl).2 ⟨"t2", "IN PROGRESS"⟩ (by decide) |>.2 rfl
  · exact ((TryApplyTransitionWithStatusName_spec _ fixTicketOpen "In Progress").2.1
      (by decide) _ rfl).1 (by decide)
  · exact (TryApplyTransitionWithStatusName_spec _ fixTicketOpen "open").1 (by decide)

/-! ### C3 -/

/-- C3, counterexample to the claim as stated.  The claim asserts that the
engine submits the ticket update first and then attempts the workflow
transition, so that when the transition fails with NoSuchTransition the
field update has already been applied.  On this concrete changed pair with
a board column, the transition fails with NoSuchTransition and the
returned trace contains no ticket-update call at all: `UpdateIssue`
attempts the transition first and returns its error before any update. -/
theorem UpdateIssue_no_update_on_failed_transition_counterexample :
    DidIssueChange (DefaultFieldMapper.GetFieldValue fixCfg) fixGhChanged fixTicketOpen
      = some true ∧
    UpdateIssue (DefaultFieldMapper.GetFieldValue fixCfg)
        (fun i => .ok (DefaultFieldMapper.MapFields fixCfg "2024-01-01" i))
        fixRemoteNoMatch fixGhChanged fixTicketOpen
      = some ([.getTransitionsCall "10005"],
          .error (.transitionFailed .noSuchTransition)) ∧
    ∀ i, RemoteCall.updateIssueCall i ∉ [RemoteCall.getTransitionsCall "10005"] := by
  refine ⟨rfl, rfl, ?_⟩
  intro i hmem
  simp at hmem

/-- Every call in a transition attempt's trace is a transitions-listing or
a transition-application call; in particular the attempt never submits a
ticket update or create. -/
theorem TryApplyTransitionWithStatusName_calls_shape
    (remote : JiraRemote) (issue : JiraIssue) (statusName : String) :
    ∀ c ∈ (TryApplyTransitionWithStatusName remote issue statusName).1,
      isApplyCall c = true ∨ ∃ ident, c = RemoteCall.getTransitionsCall ident := by
  intro c hc
  unfold TryApplyTransitionWithStatusName at hc
  by_cases h : currentStatusNameOf issue = toLowerStr statusName
  · rw [if_pos h] at hc
    simp at hc
  · rw [if_neg h] at hc
    cases hts : remote.transitions with
    | error e =>
      simp only [hts] at hc
      simp at hc
      exact Or.inr ⟨issue.id, hc⟩
    | ok ts =>
      simp only [hts] at hc
      cases hfind : ts.find? (fun v => toLowerStr v.toName = toLowerStr statusName) with
      | none =>
        simp only [hfind] at hc
        simp at hc
        exact Or.inr ⟨issue.id, hc⟩
      | some v =>
        simp only [hfind] at hc
        cases happ : remote.applyResult v <;> simp only [happ] at hc <;> simp at hc
        · rcases hc with hc | hc
          · exact Or.inr ⟨issue.id, hc⟩
          · exact Or.inl (by rw [hc]; rfl)
        · rcases hc with hc | hc
          · exact Or.inr ⟨issue.id, hc⟩
          · exact Or.inl (by rw [hc]; rfl)

/-- C3, amended.  When a matched pair has changed, the engine maps fields
and *first* attempts the workflow transition (when the issue has a board
column), then submits the ticket update — carrying only the target
ticket's key and identifier plus the freshly mapped fields — and then
re-fetches the ticket by key; consequently, when the transition fails with
NoSuchTransition, `UpdateIssue` returns that error before the update call,
so the ticket's field update has *not* been applied. -/
theorem UpdateIssue_transition_first_then_update
    (getFV : GetFV) (mapFields : GHIssue → Except Unit JiraFields)
    (remote : JiraRemote) (gh : GHIssue) (j : JiraIssue)
    (fields : JiraFields) (col : String)
    (hch : DidIssueChange getFV gh j = some true)
    (hmap : mapFields gh = .ok fields)
    (hpc : gh.projectCard = some col) :
    (∀ calls, TryApplyTransitionWithStatusName remote j col
        = (calls, .error .noSuchTransition) →
      UpdateIssue getFV mapFields remote gh j
        = some (calls, .error (.transitionFailed .noSuchTransition)) ∧
      ∀ i, RemoteCall.updateIssueCall i ∉ calls) ∧
    (∀ calls u u', TryApplyTransitionWithStatusName remote j col = (calls, .ok ()) →
      remote.updateResult ⟨j.key, j.id, some fields⟩ = .ok u →
      remote.getResult j.key = .ok u' →
      remote.commentsResult = .ok () →
      UpdateIssue getFV mapFields remote gh j
        = some ((calls ++ [.updateIssueCall ⟨j.key, j.id, some fields⟩])
            ++ [.getIssueCall j.key, .compareCommentsCall j.key], .ok ())) := by
  constructor
  · intro calls htr
    constructor
    · unfold UpdateIssue
      rw [hch]
      simp only [if_true]
      rw [hmap]
      simp only [hpc, htr]
    · intro i hmem
      have := TryApplyTransitionWithStatusName_calls_shape remote j col
        (RemoteCall.updateIssueCall i) (by rw [htr]; exact hmem)
      rcases this with h | ⟨ident, h⟩
      · exact absurd h (by simp [isApplyCall])
      · exact RemoteCall.noConfusion h
  · intro calls u u' htr hupd hget hcmts
    unfold UpdateIssue
    rw [hch]
    simp only [if_true]
    rw [hmap]
    simp only [hpc, htr, hupd, hget, hcmts]

/-- Witness for the amended C3: on a concrete changed pair whose
transition matches, the full trace is the transition calls, then the
update carrying only the key, identifier and mapped fields, then the
re-fetch and the comment reconciliation; and on the no-match oracle the
NoSuchTransition error comes back with no update call. -/
theorem UpdateIssue_transition_first_then_update_witness :
    UpdateIssue (DefaultFieldMapper.GetFieldValue fixCfg)
        (fun i => .ok (DefaultFieldMapper.MapFields fixCfg "2024-01-01" i))
        fixRemoteMatch fixGhChanged fixTicketOpen
      = some ((([.getTransitionsCall "10005", .applyTransitionCall "10005" "t2"]
            ++ [.updateIssueCall ⟨"TPK-5", "10005",
                  some (DefaultFieldMapper.MapFields fixCfg "2024-01-01" fixGhChanged)⟩])
          ++ [.getIssueCall "TPK-5", .compareCommentsCall "TPK-5"]), .ok ()) ∧
    ∀ i, RemoteCall.updateIssueCall i ∉ [RemoteCall.getTransitionsCall "10005"] := by
  have h := UpdateIssue_transition_first_then_update
    (DefaultFieldMapper.GetFieldValue fixCfg)
    (fun i => .ok (DefaultFieldMapper.MapFields fixCfg "2024-01-01" i))
    fixRemoteMatch fixGhChanged fixTicketOpen
    (DefaultFieldMapper.MapFields fixCfg "2024-01-01" fixGhChanged) "In Progress"
    rfl rfl rfl
  have h2 := h.2 [.getTransitionsCall "10005", .applyTransitionCall "10005" "t2"]
    ⟨"TPK-5", "10005", some (DefaultFieldMapper.MapFields fixCfg "2024-01-01" fixGhChanged)⟩
    fixTicketEqual rfl rfl rfl rfl
  refine ⟨h2, ?_⟩
  intro i hmem
  simp at hmem

/-! ### C4 -/

theorem findMatchingJira_total (getFV : GetFV) (ghId : Int) :
    ∀ l : List JiraIssue, (∀ j ∈ l, goodIDRead getFV j) →
      ∃ o, findMatchingJira getFV ghId l = some o := by
  intro l
  induction l with
  | nil => exact fun _ => ⟨none, rfl⟩
  | cons j rest ih =>
    intro hgood
    obtain ⟨o, ho⟩ := ih (fun x hx => hgood x (List.mem_cons_of_mem j hx))
    rcases hgood j (List.mem_cons_self j rest) with herr | ⟨i, hok⟩
    · exact ⟨o, by unfold findMatchingJira; rw [herr]; exact ho⟩
    · by_cases heq : ghId = i
      · exact ⟨some j, by unfold findMatchingJira; rw [hok]; simp [heq]⟩
      · exact ⟨o, by unfold findMatchingJira; rw [hok]; simp [heq]; exact ho⟩

/-- C4.  For every source issue in the collected list, an error returned
by the update or create routine is only recorded (logged) and the loop
continues: the reconciliation body completes without an early error return
and produces exactly one event per GitHub issue, in order, for *any*
outcome functions `upd`/`crt` — in particular ones that fail on every
issue.  (The hypothesis says the GitHub-ID reads used for matching do not
panic — the mappers return an error or an integer there.) -/
theorem CompareIssuesLoop_processes_every_issue
    (getFV : GetFV) (upd : GHIssue → JiraIssue → Except EngineError Unit)
    (crt : GHIssue → Except EngineError Unit)
    (ghIssues : List GHIssue) (jiraIssues : List JiraIssue)
    (hgood : ∀ j ∈ jiraIssues, goodIDRead getFV j) :
    ∃ evs, CompareIssuesLoop getFV upd crt ghIssues jiraIssues = some evs ∧
      List.Forall₂ SyncEvent.isFor evs ghIssues := by
  induction ghIssues with
  | nil => exact ⟨[], rfl, .nil⟩
  | cons gh rest ih =>
    obtain ⟨evs, hevs, hfa⟩ := ih
    obtain ⟨o, ho⟩ := findMatchingJira_total getFV gh.id jiraIssues hgood
    cases o with
    | none =>
      refine ⟨.created gh.number (match crt gh with | .error _ => true | .ok _ => false)
        :: evs, ?_, ?_⟩
      · unfold CompareIssuesLoop
        rw [ho, hevs]
        rfl
      · exact List.Forall₂.cons rfl hfa
    | some jIssue =>
      refine ⟨.updated gh.id jIssue.key
        (match upd gh jIssue with | .error _ => true | .ok _ => false) :: evs, ?_, ?_⟩
      · unfold CompareIssuesLoop
        rw [ho, hevs]
        rfl
      · exact List.Forall₂.cons rfl hfa

/-- Witness for C4: with an update routine and a create routine that fail
on every issue, the loop still completes and yields one event per issue
(the first issue matches the ticket and is updated, the second does not
and is created). -/
theorem CompareIssuesLoop_processes_every_issue_witness :
    ∃ evs, CompareIssuesLoop (DefaultFieldMapper.GetFieldValue fixCfg)
        (fun _ _ => .error .updateFailed) (fun _ => .error .commentsFailed)
        [fixGhEqual, fixBigIssue] [fixTicketEqual] = some evs ∧
      List.Forall₂ SyncEvent.isFor evs [fixGhEqual, fixBigIssue] :=
  CompareIssuesLoop_processes_every_issue
    (DefaultFieldMapper.GetFieldValue fixCfg)
    (fun _ _ => .error .updateFailed) (fun _ => .error .commentsFailed)
    [fixGhEqual, fixBigIssue] [fixTicketEqual]
    (by
      intro j hj
      simp only [List.mem_singleton] at hj
      subst hj
      exact Or.inr ⟨5, rfl⟩)

/-! ### C2 -/

theorem strData_append (s t : String) : (s ++ t).data = s.data ++ t.data := rfl

theorem joinComma_embeds : ∀ (l : List String) (x : String), x ∈ l →
    ∃ pre post, (joinComma l).data = pre ++ x.data ++ post := by
  intro l
  induction l with
  | nil => intro x hx; cases hx
  | cons y ys ih =>
    intro x hx
    cases ys with
    | nil =>
      rcases List.mem_cons.mp hx with rfl | h
      · exact ⟨[], [], by simp [joinComma]⟩
      · cases h
    | cons z zs =>
      rcases List.mem_cons.mp hx with rfl | h
      · refine ⟨[], ",".data ++ (joinComma (z :: zs)).data, ?_⟩
        simp [joinComma, strData_append, List.append_assoc]
      · obtain ⟨pre, post, hjp⟩ := ih x h
        refine ⟨y.data ++ ",".data ++ pre, post, ?_⟩
        simp [joinComma, strData_append, hjp, List.append_assoc]

theorem clientFilterStep_of_err {getFV : GetFV} {t : JiraIssue}
    (ghIssueIds : List Int) (herr : getFV t .gitHubID = some (.error ())) :
    Issuesyncjira.clientFilterStep getFV ghIssueIds t = some false := by
  unfold Issuesyncjira.clientFilterStep
  rw [herr]

theorem clientFilterStep_of_int {getFV : GetFV} {t : JiraIssue} {i : Int}
    (ghIssueIds : List Int) (hok : getFV t .gitHubID = some (.ok (.vint i))) :
    Issuesyncjira.clientFilterStep getFV ghIssueIds t
      = some (ghIssueIds.contains i) := by
  unfold Issuesyncjira.clientFilterStep
  rw [hok]
  cases ghIssueIds <;> rfl

theorem serverMatch_of_err {getFV : GetFV} {t : JiraIssue}
    (ghIssueIds : List Int) (herr : getFV t .gitHubID = some (.error ())) :
    serverMatch getFV ghIssueIds t = false := by
  unfold serverMatch
  rw [herr]

theorem serverMatch_of_int {getFV : GetFV} {t : JiraIssue} {i : Int}
    (ghIssueIds : List Int) (hok : getFV t .gitHubID = some (.ok (.vint i))) :
    serverMatch getFV ghIssueIds t = ghIssueIds.contains i := by
  unfold serverMatch
  rw [hok]

theorem filterPanicky_eq_filter (getFV : GetFV) (ghIssueIds : List Int) :
    ∀ l : List JiraIssue, (∀ t ∈ l, goodIDRead getFV t) →
      Issuesyncjira.filterPanicky (Issuesyncjira.clientFilterStep getFV ghIssueIds) l
        = some (l.filter (serverMatch getFV ghIssueIds)) := by
  intro l
  induction l with
  | nil => intro _; rfl
  | cons t rest ih =>
    intro h
    have hrest := ih (fun x hx => h x (List.mem_cons_of_mem t hx))
    unfold Issuesyncjira.filterPanicky
    rcases h t (List.mem_cons_self t rest) with herr | ⟨i, hok⟩
    · rw [clientFilterStep_of_err ghIssueIds herr, hrest]
      simp [List.filter_cons, serverMatch_of_err ghIssueIds herr]
    · rw [clientFilterStep_of_int ghIssueIds hok, hrest]
      simp only [Option.map_some]
      simp only [List.filter_cons, serverMatch_of_int ghIssueIds hok]
      cases hcont : ghIssueIds.contains i <;> simp [hcont]

/-- C2.  `ListIssues` selects its filtering path by both identifier count
and mapping strategy.  Under the assumption that the server answers the
filtered query with exactly the project tickets whose GitHub-ID field
matches (`hsrvFiltered`) and the unfiltered query with all project
tickets (`hsrvAll`): with the direct-field strategy and fewer than 100
identifiers it issues exactly the one server-side filtered query, whose
string embeds every identifier's decimal representation; with 100 or more
identifiers, or with the blob strategy for any count, it issues the one
unfiltered project query and filters client-side through the field
mapper; and all paths return the same list of tickets. -/
theorem ListIssues_query_paths
    (getFV : GetFV) (search : String → Except Unit (List JiraIssue))
    (pk fid : String) (ids : List Int) (allTickets : List JiraIssue)
    (hfields : ∀ t ∈ allTickets, t.fields ≠ none)
    (hgood : ∀ t ∈ allTickets, goodIDRead getFV t)
    (hsrvFiltered : search (Issuesyncjira.mkFilteredJql pk fid ids)
      = .ok (allTickets.filter (serverMatch getFV ids)))
    (hsrvAll : search (Issuesyncjira.mkProjectJql pk) = .ok allTickets) :
    (ids.length < Issuesyncjira.maxJQLIssueLength →
      Issuesyncjira.ListIssues true getFV search pk fid ids
        = some ([Issuesyncjira.mkFilteredJql pk fid ids],
            .ok (allTickets.filter (serverMatch getFV ids)))) ∧
    (Issuesyncjira.maxJQLIssueLength ≤ ids.length →
      Issuesyncjira.ListIssues true getFV search pk fid ids
        = some ([Issuesyncjira.mkProjectJql pk],
            .ok (allTickets.filter (serverMatch getFV ids)))) ∧
    (Issuesyncjira.ListIssues false getFV search pk fid ids
      = some ([Issuesyncjira.mkProjectJql pk],
          .ok (allTickets.filter (serverMatch getFV ids)))) ∧
    (∀ i ∈ ids, ∃ pre post,
      (Issuesyncjira.mkFilteredJql pk fid ids).data = pre ++ (toString i).data ++ post) := by
  have hanyFilter : ∀ p : JiraIssue → Bool,
      (allTickets.filter p).any (fun v => v.fields = none) = false := by
    intro p
    rw [List.any_eq_false]
    intro x hx
    have := hfields x (List.mem_of_mem_filter hx)
    simp [this]
  have hanyAll : allTickets.any (fun v => v.fields = none) = false := by
    rw [List.any_eq_false]
    intro x hx
    have := hfields x hx
    simp [this]
  have hgoodFilter := filterPanicky_eq_filter getFV ids allTickets hgood
  refine ⟨?_, ?_, ?_, ?_⟩
  · intro hlt
    unfold Issuesyncjira.ListIssues
    simp [hlt, hsrvFiltered, hanyFilter]
  · intro hge
    have hnlt : ¬ ids.length < Issuesyncjira.maxJQLIssueLength := not_lt.mpr hge
    unfold Issuesyncjira.ListIssues
    simp [hnlt, hsrvAll, hanyAll, hgoodFilter]
  · unfold Issuesyncjira.ListIssues
    simp [hsrvAll, hanyAll, hgoodFilter]
  · intro i hi
    have hmem : toString i ∈ ids.map toString := List.mem_map_of_mem toString hi
    obtain ⟨pre, post, hjp⟩ := joinComma_embeds (ids.map toString) (toString i) hmem
    refine ⟨("project=" ++ "'" ++ pk ++ "'" ++ " AND cf[" ++ fid ++ "] in (").data ++ pre,
      post ++ ")".data, ?_⟩
    show (("project=" ++ "'" ++ pk ++ "'" ++ " AND cf[" ++ fid ++ "] in (") ++
      joinComma (ids.map toString) ++ ")").data = _
    simp [strData_append, hjp, List.append_assoc]

/-- Witness for C2: with 1 identifier (< 100) and the direct-field
strategy the filtered query path is taken; with the blob strategy and the
same count the unfiltered query is issued and the client-side filter keeps
the matching ticket. -/
theorem ListIssues_query_paths_witness :
    Issuesyncjira.ListIssues true (DefaultFieldMapper.GetFieldValue fixCfg)
        (fun _ => .ok [fixTicketEqual]) "TPK" "cf1" [5]
      = some ([Issuesyncjira.mkFilteredJql "TPK" "cf1" [5]], .ok [fixTicketEqual]) ∧
    Issuesyncjira.ListIssues false (JsonFieldMapper.GetFieldValue fixCfg)
        (fun _ => .ok [fixTicketJson]) "TPK" "cf1" [5]
      = some ([Issuesyncjira.mkProjectJql "TPK"], .ok [fixTicketJson]) := by
  have h1 := ListIssues_query_paths (DefaultFieldMapper.GetFieldValue fixCfg)
    (fun _ => .ok [fixTicketEqual]) "TPK" "cf1" [5] [fixTicketEqual]
    (by intro t ht; simp only [List.mem_singleton] at ht; subst ht; simp [fixTicketEqual])
    (by intro t ht; simp only [List.mem_singleton] at ht; subst ht; exact Or.inr ⟨5, rfl⟩)
    rfl rfl
  have h2 := ListIssues_query_paths (JsonFieldMapper.GetFieldValue fixCfg)
    (fun _ => .ok [fixTicketJson]) "TPK" "cf1" [5] [fixTicketJson]
    (by intro t ht; simp only [List.mem_singleton] at ht; subst ht; simp [fixTicketJson])
    (by intro t ht; simp only [List.mem_singleton] at ht; subst ht; exact Or.inr ⟨5, rfl⟩)
    rfl rfl
  exact ⟨h1.1 (by decide), h2.2.2.1⟩

/-! ### C7 -/

namespace Issuesyncgithub

theorem processEvent_fst (st : Option String × List String) (e : IssueEvent) :
    (processEvent st e).1 = cardStep st.1 e := rfl

theorem foldl_processEvent_fst :
    ∀ (evs : List IssueEvent) (st : Option String × List String),
      (evs.foldl processEvent st).1 = evs.foldl cardStep st.1 := by
  intro evs
  induction evs with
  | nil => intro st; rfl
  | cons e rest ih =>
    intro st
    rw [List.foldl_cons, List.foldl_cons, ih, processEvent_fst]

theorem foldl_processEvent_snd :
    ∀ (evs : List IssueEvent) (st : Option String × List String),
      (evs.foldl processEvent st).2 = st.2 ++ specCommitIds evs := by
  intro evs
  induction evs with
  | nil => intro st; simp [specCommitIds]
  | cons e rest ih =>
    intro st
    rw [List.foldl_cons, ih]
    unfold specCommitIds
    cases hc : e.commitId <;>
      simp [processEvent, hc, List.filterMap_cons, List.append_assoc]

theorem cardStep_of_affect (card : Option String) (e : IssueEvent)
    (h : eventAffectsCard e = true) :
    cardStep card e
      = if e.event = "removed_from_project" then none else e.projectCardColumn := by
  unfold eventAffectsCard at h
  unfold cardStep
  cases hpc : e.projectCardColumn with
  | none => rw [hpc] at h; simp at h
  | some c =>
    rw [hpc] at h
    simp at h
    rcases h with (h | h) | h <;> simp [h]

theorem cardStep_of_not_affect (card : Option String) (e : IssueEvent)
    (h : eventAffectsCard e = false) : cardStep card e = card := by
  unfold eventAffectsCard at h
  unfold cardStep
  cases hpc : e.projectCardColumn with
  | none => rfl
  | some c =>
    rw [hpc] at h
    simp at h
    simp [h.1.1, h.1.2, h.2]

theorem foldl_cardStep_eq_spec :
    ∀ (evs : List IssueEvent) (card : Option String),
      evs.foldl cardStep card
        = match evs.reverse.find? eventAffectsCard with
          | some e => if e.event = "removed_from_project" then none
                      else e.projectCardColumn
          | none => card := by
  intro evs
  induction evs with
  | nil => intro card; rfl
  | cons e rest ih =>
    intro card
    rw [List.foldl_cons, ih]
    have hrev : (e :: rest).reverse = rest.reverse ++ [e] := by simp
    rw [hrev, List.find?_append]
    cases hfind : rest.reverse.find? eventAffectsCard with
    | some e' => rfl
    | none =>
      simp only [Option.none_or]
      cases haff : eventAffectsCard e with
      | true =>
        simp only [List.find?_cons, haff, List.find?_nil]
        exact cardStep_of_affect card e haff
      | false =>
        simp only [List.find?_cons, haff, List.find?_nil]
        exact cardStep_of_not_affect card e haff

/-- The paginated event walk equals the spec's fold over the concatenated
event stream: the resulting card is the spec's last-placement rule and the
commit list is every commit reference in event order. -/
theorem getCurrentProjectCardAndCommitIds_spec (pages : List (List IssueEvent)) :
    getCurrentProjectCardAndCommitIds pages
      = (specBoardColumn pages.join, specCommitIds pages.join) := by
  unfold getCurrentProjectCardAndCommitIds
  rw [← List.foldl_join]
  refine Prod.ext ?_ ?_
  · rw [foldl_processEvent_fst, foldl_cardStep_eq_spec]
    rfl
  · rw [foldl_processEvent_snd]
    rfl

theorem foldl_append_map (g : List RawIssue → List GHIssue) :
    ∀ (pages : List (List RawIssue)) (acc : List GHIssue),
      pages.foldl (fun issues page => issues ++ g page) acc
        = acc ++ (pages.map g).join := by
  intro pages
  induction pages with
  | nil => intro acc; simp
  | cons p ps ih =>
    intro acc
    rw [List.foldl_cons, ih]
    simp [List.append_assoc]

theorem join_map_filter_map (q : RawIssue → Bool) (f : RawIssue → GHIssue) :
    ∀ pages : List (List RawIssue),
      (pages.map (fun page => (page.filter q).map f)).join
        = (pages.join.filter q).map f := by
  intro pages
  induction pages with
  | nil => rfl
  | cons p ps ih => simp [List.filter_append, ih]

end Issuesyncgithub

/-- C7.  The source collector excludes every issue carrying a pull-request
linkage, and (when the repository has project boards) each retained
issue's derived state is the fold of its concatenated event stream: the
board column is the one set by the last added/moved event not followed by
a removal (absent if removed last or never set, per `specBoardColumn`),
and the commit-id list accumulates every event's commit reference in event
order without de-duplication (`specCommitIds`). -/
theorem ListIssues_github_excludes_prs_and_folds_events
    (eventsFor : Int → Option (List (List Issuesyncgithub.IssueEvent)))
    (issuePages : List (List Issuesyncgithub.RawIssue)) :
    Issuesyncgithub.ListIssues true eventsFor issuePages
      = (issuePages.join.filter (fun v => ¬ v.isPullRequest)).map (fun v =>
          match eventsFor v.number with
          | some eventPages =>
            Issuesyncgithub.extendIssue v
              (Issuesyncgithub.specBoardColumn eventPages.join)
              (some (Issuesyncgithub.specCommitIds eventPages.join))
          | none => Issuesyncgithub.extendIssue v none none) := by
  unfold Issuesyncgithub.ListIssues
  rw [Issuesyncgithub.foldl_append_map, List.nil_append,
    Issuesyncgithub.join_map_filter_map]
  congr 1
  funext v
  cases hev : eventsFor v.number with
  | none => simp [hev]
  | some eventPages =>
    simp only [hev, if_true]
    rw [Issuesyncgithub.getCurrentProjectCardAndCommitIds_spec]

/-! ### C9 -/

namespace Utils

theorem retryLoop_ok {E A : Type} (f : Nat → Except E A) (wait : Nat → Nat) :
    ∀ (j k budget : Nat) (a : A),
      (∀ i < j, ∃ e, f (k + i) = .error e) → f (k + j) = .ok a →
      waitSum wait k j ≤ budget →
      retryLoop f wait k budget = (k + j, .ok a) := by
  intro j
  induction j with
  | zero =>
    intro k budget a _ hok _
    unfold retryLoop
    rw [Nat.add_zero] at hok
    simp only [hok]
    rfl
  | succ j ih =>
    intro k budget a hfail hok hsum
    obtain ⟨e, he⟩ := hfail 0 (Nat.succ_pos j)
    rw [Nat.add_zero] at he
    unfold retryLoop
    simp only [he]
    have hd : ¬ budget < wait k + 1 := by
      unfold waitSum at hsum
      omega
    rw [dif_neg hd]
    have h1 : ∀ i < j, ∃ e, f (k + 1 + i) = .error e := by
      intro i hi
      have := hfail (i + 1) (Nat.succ_lt_succ hi)
      rwa [show k + (i + 1) = k + 1 + i by omega] at this
    have h2 : f (k + 1 + j) = .ok a := by
      rwa [show k + (j + 1) = k + 1 + j by omega] at hok
    have h3 : waitSum wait (k + 1) j ≤ budget - (wait k + 1) := by
      unfold waitSum at hsum
      omega
    rw [ih (k + 1) (budget - (wait k + 1)) a h1 h2 h3]
    congr 1
    omega

theorem retryLoop_all_fail {E A : Type} (f : Nat → Except E A) (wait : Nat → Nat)
    (hfail : ∀ i, ∃ e, f i = .error e) :
    ∀ (budget k : Nat), ∃ j e, retryLoop f wait k budget = (j, .error e) ∧
      f j = .error e := by
  intro budget
  induction budget using Nat.strong_induction_on with
  | _ budget ih =>
    intro k
    obtain ⟨e, he⟩ := hfail k
    by_cases hd : budget < wait k + 1
    · refine ⟨k, e, ?_, he⟩
      unfold retryLoop
      simp [he, hd]
    · have hlt : budget - (wait k + 1) < budget := by omega
      obtain ⟨j, e', hres, he'⟩ := ih (budget - (wait k + 1)) hlt (k + 1)
      refine ⟨j, e', ?_, he'⟩
      unfold retryLoop
      simp only [he]
      rw [dif_neg hd]
      exact hres

theorem retryLoop_zero_wait {E A : Type} (f : Nat → Except E A) (e : E)
    (hfail : ∀ i, f i = .error e) :
    ∀ (budget k : Nat), retryLoop f (fun _ => 0) k budget = (k + budget, .error e) := by
  intro budget
  induction budget with
  | zero =>
    intro k
    unfold retryLoop
    simp only [hfail k]
    rw [dif_pos (by omega)]
    rfl
  | succ b ih =>
    intro k
    unfold retryLoop
    simp only [hfail k]
    rw [dif_neg (by omega)]
    have hb : b + 1 - (0 + 1) = b := by omega
    rw [hb, ih (k + 1)]
    congr 1
    omega

end Utils

/-- C9.  `Retry` invokes the wrapped operation immediately (attempt 0,
before any pause); when some attempt succeeds within the time budget, it
returns that attempt's result with no error, no matter how many earlier
attempts failed; when every attempt fails, it returns the last attempted
failure as a non-nil error; and the attempt count is bounded only by the
elapsed-time budget — with zero backoff pauses and budget `timeout`, a
permanently failing operation is attempted `timeout + 1` times. -/
theorem Retry_spec {E A : Type} (f : Nat → Except E A) (wait : Nat → Nat)
    (timeout : Nat) :
    (∀ a, f 0 = .ok a → Utils.Retry f wait timeout = (0, .ok a)) ∧
    (∀ j a, (∀ i < j, ∃ e, f i = .error e) → f j = .ok a →
      Utils.waitSum wait 0 j ≤ timeout → Utils.Retry f wait timeout = (j, .ok a)) ∧
    ((∀ i, ∃ e, f i = .error e) →
      ∃ j e, Utils.Retry f wait timeout = (j, .error e) ∧ f j = .error e) ∧
    (∀ e, (∀ i, f i = .error e) →
      Utils.Retry f (fun _ => 0) timeout = (timeout, .error e)) := by
  refine ⟨?_, ?_, ?_, ?_⟩
  · intro a hok
    exact Utils.retryLoop_ok f wait 0 0 timeout a (fun i hi => absurd hi (Nat.not_lt_zero i))
      hok (Nat.zero_le timeout)
  · intro j a hfail hok hsum
    have := Utils.retryLoop_ok f wait j 0 timeout a
      (fun i hi => by simpa using hfail i hi) (by simpa using hok) hsum
    simpa using this
  · intro hfail
    exact Utils.retryLoop_all_fail f wait hfail timeout 0
  · intro e hfail
    have := Utils.retryLoop_zero_wait f e hfail timeout 0
    simpa using this

/-- Witness for C9: an operation failing three times then succeeding is
retried to success within the budget, and a permanently failing operation
returns the last error once the budget is exhausted. -/
theorem Retry_spec_witness :
    Utils.Retry (fun i => if i < 3 then (.error i : Except Nat String) else .ok "done")
      (fun _ => 0) 10 = (3, .ok "done") ∧
    Utils.Retry (fun _ => (.error 7 : Except Nat String)) (fun _ => 0) 5
      = (5, .error 7) := by
  constructor
  · exact (Retry_spec (fun i => if i < 3 then (.error i : Except Nat String) else .ok "done")
      (fun _ => 0) 10).2.1 3 "done"
      (fun i hi => ⟨i, by simp [hi]⟩) (by norm_num) (by decide)
  · exact (Retry_spec (fun _ => (.error 7 : Except Nat String)) (fun _ => 0) 5).2.2.2 7
      (fun _ => rfl)

end IssueSync
